import Mathlib

/-!
Verification development for the db-ferry task execution engine.

The definitions below are a shallow embedding of the Go sources:
`processor/processor.go` (batch pipeline, resume state, retry, SQL
wrapping), `database/mysql.go`, `database/sqlserver.go` (which also holds
the PostgreSQL adapter and the `TargetDB` interface) and the SQLite
adapter.  Go strings become Lean `String`, Go `int` becomes `Int` (or
`Nat` where the source guarantees non-negativity), Go `any` row values
become an explicit sum type, and the external database engine is either
left as an oracle parameter or — where a claim is about engine semantics
absent from the repository — modelled from the spec and marked as such.
-/

namespace DbFerry

/-! ## Character and string helpers -/

/-- The single-quote character (code point 39). -/
def sqChar : Char := Char.ofNat 39

/-- The backtick character (code point 96), MySQL's identifier quote. -/
def btChar : Char := Char.ofNat 96

/-- The double-quote character (code point 34). -/
def dqChar : Char := Char.ofNat 34

/-- The semicolon character, the trailing separator `trimSQL` strips. -/
def semiChar : Char := Char.ofNat 59

/-- Go `strings.Join(parts, sep)`. -/
def strJoin (sep : String) : List String → String
  | [] => ""
  | [x] => x
  | x :: xs => x ++ sep ++ strJoin sep xs

/-- Whether `pat` is a leading run of `cs`. -/
def listStartsWith : List Char → List Char → Bool
  | [], _ => true
  | _ :: _, [] => false
  | p :: ps, c :: cs => p == c && listStartsWith ps cs

/-- Whether `pat` occurs contiguously inside `cs`. -/
def listHasSub (pat : List Char) : List Char → Bool
  | [] => listStartsWith pat []
  | c :: cs => listStartsWith pat (c :: cs) || listHasSub pat cs

/-- Go `strings.Contains(s, pat)`. -/
def strContainsGo (s pat : String) : Bool := listHasSub pat.data s.data

/-- Go `strings.ToUpper` restricted to the ASCII letters the type keywords use. -/
def strUpperGo (s : String) : String := String.mk (s.data.map Char.toUpper)

/-- Go `strings.ToLower` restricted to ASCII, used for merge-key matching. -/
def strLowerGo (s : String) : String := String.mk (s.data.map Char.toLower)

/-- Doubling every occurrence of `target`, the common identifier-escaping step
(`strings.ReplaceAll(name, q, qq)` for a one-character quote `q`). -/
def doubleChar (target : Char) : List Char → List Char
  | [] => []
  | c :: cs => if c == target then target :: target :: doubleChar target cs else c :: doubleChar target cs

/-! ## Decimal rendering (Go `fmt.Sprintf("%d", v)`) -/

/-- The digit character for `d < 10`. -/
def digitChar (d : Nat) : Char := Char.ofNat (48 + d)

/-- Decimal digits of `n`, most significant first; `fuel` bounds the recursion
and `n + 1` steps always suffice. -/
def natDecAux : Nat → Nat → List Char
  | 0, _ => []
  | fuel + 1, n => if n < 10 then [digitChar n] else natDecAux fuel (n / 10) ++ [digitChar (n % 10)]

/-- Decimal digits of a natural number. -/
def natDec (n : Nat) : List Char := natDecAux (n + 1) n

/-- Go `%d` of a non-negative integer. -/
def natDecStr (n : Nat) : String := String.mk (natDec n)

/-- Go `%d` of a (possibly negative) integer. -/
def intDecStr (i : Int) : String :=
  if i < 0 then String.mk ([Char.ofNat 45] ++ natDec i.natAbs) else natDecStr i.toNat

/-! ## Column metadata (`database.ColumnMetadata`) -/

/-- `database.ColumnMetadata`: column information extracted from a query
result set (sqlserver.go, concatenated interface file). -/
structure ColumnMetadata where
  name : String
  databaseType : String := ""
  length : Int := 0
  lengthValid : Bool := false
  precision : Int := 0
  scale : Int := 0
  precisionScaleValid : Bool := false
  nullable : Bool := false
  nullableValid : Bool := false
  goType : String := ""
deriving Repr, DecidableEq

/-- The uppercased type name the mappers classify: the driver-reported
database type, or the Go scan type when that is empty (shared head of
`mapToMySQLType`, `mapToSQLServerType`, …). -/
def typeNameOf (column : ColumnMetadata) : String :=
  let t := strUpperGo column.databaseType
  if t = "" then strUpperGo column.goType else t

/-- `(*MySQLDB).mapToMySQLType` (mysql.go lines 265-310). -/
def mapToMySQLType (column : ColumnMetadata) : String :=
  let typeName := typeNameOf column
  let length : Int := if column.lengthValid then column.length else 0
  let precision : Int := if column.precisionScaleValid then column.precision else 0
  let scale : Int := if column.precisionScaleValid then column.scale else 0
  if strContainsGo typeName "INT" then "BIGINT"
  else if strContainsGo typeName "DOUBLE" || strContainsGo typeName "FLOAT" || strContainsGo typeName "REAL" then "DOUBLE"
  else if strContainsGo typeName "DEC" || strContainsGo typeName "NUMERIC" || strContainsGo typeName "NUMBER" then
    if precision > 0 then
      "DECIMAL(" ++ intDecStr precision ++ "," ++ intDecStr (if scale < 0 then 0 else scale) ++ ")"
    else "DECIMAL(38,0)"
  else if strContainsGo typeName "CHAR" || strContainsGo typeName "TEXT" || strContainsGo typeName "CLOB" || strContainsGo typeName "STRING" then
    if length > 0 && length ≤ 65535 then "VARCHAR(" ++ intDecStr length ++ ")" else "TEXT"
  else if strContainsGo typeName "DATE" || strContainsGo typeName "TIME" then "DATETIME"
  else if strContainsGo typeName "BLOB" || strContainsGo typeName "BINARY" || strContainsGo typeName "RAW" then "LONGBLOB"
  else if strContainsGo typeName "BOOL" then "TINYINT(1)"
  else "TEXT"

/-- `(*SQLServerDB).mapToSQLServerType` (sqlserver.go lines 284-329). -/
def mapToSQLServerType (column : ColumnMetadata) : String :=
  let typeName := typeNameOf column
  let length : Int := if column.lengthValid then column.length else 0
  let precision : Int := if column.precisionScaleValid then column.precision else 0
  let scale : Int := if column.precisionScaleValid then column.scale else 0
  if strContainsGo typeName "INT" then "BIGINT"
  else if strContainsGo typeName "DOUBLE" || strContainsGo typeName "FLOAT" || strContainsGo typeName "REAL" then "FLOAT"
  else if strContainsGo typeName "DEC" || strContainsGo typeName "NUMERIC" || strContainsGo typeName "NUMBER" then
    if precision > 0 then
      "DECIMAL(" ++ intDecStr precision ++ "," ++ intDecStr (if scale < 0 then 0 else scale) ++ ")"
    else "DECIMAL(38,0)"
  else if strContainsGo typeName "CHAR" || strContainsGo typeName "TEXT" || strContainsGo typeName "CLOB" || strContainsGo typeName "STRING" then
    if length > 0 && length ≤ 4000 then "NVARCHAR(" ++ intDecStr length ++ ")" else "NVARCHAR(MAX)"
  else if strContainsGo typeName "DATE" || strContainsGo typeName "TIME" then "DATETIME2"
  else if strContainsGo typeName "BLOB" || strContainsGo typeName "BINARY" || strContainsGo typeName "RAW" then "VARBINARY(MAX)"
  else if strContainsGo typeName "BOOL" then "BIT"
  else "NVARCHAR(MAX)"

/-! ## Identifier quoting and placeholders -/

/-- `(*MySQLDB).quoteIdentifier`: backtick-quote, doubling embedded backticks. -/
def mysqlQuoteIdentifier (name : String) : String :=
  String.mk ([btChar] ++ doubleChar btChar name.data ++ [btChar])

/-- `(*SQLServerDB).quoteIdentifier`: bracket-quote, doubling closing brackets. -/
def sqlserverQuoteIdentifier (name : String) : String :=
  "[" ++ String.mk (doubleChar (Char.ofNat 93) name.data) ++ "]"

/-- `(*PostgresDB).quoteIdentifier`: double-quote, doubling embedded quotes. -/
def postgresQuoteIdentifier (name : String) : String :=
  String.mk ([dqChar] ++ doubleChar dqChar name.data ++ [dqChar])

/-- `buildSQLServerPlaceholders`: `@p1`, `@p2`, … -/
def buildSQLServerPlaceholders (count : Nat) : List String :=
  (List.range count).map (fun i => "@p" ++ natDecStr (i + 1))

/-- `buildPostgresPlaceholders`: `$1`, `$2`, … -/
def buildPostgresPlaceholders (count : Nat) : List String :=
  (List.range count).map (fun i => "$" ++ natDecStr (i + 1))

/-! ## Insert and upsert statement builders

Each `...SQL` definition is the statement string the corresponding Go
method prepares; the `Option` result mirrors the method's
`merge_keys is required for upsert` guard (`none` iff the key list is
empty).  The `len(values) == 0` early return of each method commits
nothing and prepares no statement, so it does not appear here. -/

/-- The statement `(*MySQLDB).InsertData` prepares (mysql.go lines 113-123). -/
def mysqlInsertSQL (tableName : String) (columns : List ColumnMetadata) : String :=
  let placeholders := columns.map (fun _ => "?")
  let columnNames := columns.map (fun col => mysqlQuoteIdentifier col.name)
  "INSERT INTO " ++ mysqlQuoteIdentifier tableName ++ " (" ++ strJoin ", " columnNames
    ++ ") VALUES (" ++ strJoin ", " placeholders ++ ")"

/-- The statement `(*MySQLDB).UpsertData` prepares (mysql.go lines 144-178). -/
def mysqlUpsertSQL (tableName : String) (columns : List ColumnMetadata) (mergeKeys : List String) : Option String :=
  match mergeKeys with
  | [] => none
  | key0 :: _ =>
    let keySet := mergeKeys.map strLowerGo
    let placeholders := columns.map (fun _ => "?")
    let columnNames := columns.map (fun col => mysqlQuoteIdentifier col.name)
    let updateAssignments :=
      (columns.filter (fun col => !(keySet.contains (strLowerGo col.name)))).map
        (fun col => mysqlQuoteIdentifier col.name ++ "=VALUES(" ++ mysqlQuoteIdentifier col.name ++ ")")
    let updateAssignments :=
      if updateAssignments = [] then
        [mysqlQuoteIdentifier key0 ++ "=" ++ mysqlQuoteIdentifier key0]
      else updateAssignments
    some ("INSERT INTO " ++ mysqlQuoteIdentifier tableName ++ " (" ++ strJoin ", " columnNames
      ++ ") VALUES (" ++ strJoin ", " placeholders
      ++ ") ON DUPLICATE KEY UPDATE " ++ strJoin ", " updateAssignments)

/-- The statement `(*PostgresDB).UpsertData` prepares (sqlserver.go,
PostgreSQL adapter, lines 489-529). -/
def postgresUpsertSQL (tableName : String) (columns : List ColumnMetadata) (mergeKeys : List String) : Option String :=
  match mergeKeys with
  | [] => none
  | _ :: _ =>
    let keySet := mergeKeys.map strLowerGo
    let placeholders := buildPostgresPlaceholders columns.length
    let columnNames := columns.map (fun col => postgresQuoteIdentifier col.name)
    let updateAssignments :=
      (columns.filter (fun col => !(keySet.contains (strLowerGo col.name)))).map
        (fun col => postgresQuoteIdentifier col.name ++ "=EXCLUDED." ++ postgresQuoteIdentifier col.name)
    let conflictCols := mergeKeys.map postgresQuoteIdentifier
    let action :=
      if updateAssignments = [] then "DO NOTHING"
      else "DO UPDATE SET " ++ strJoin ", " updateAssignments
    some ("INSERT INTO " ++ postgresQuoteIdentifier tableName ++ " (" ++ strJoin ", " columnNames
      ++ ") VALUES (" ++ strJoin ", " placeholders
      ++ ") ON CONFLICT(" ++ strJoin ", " conflictCols ++ ") " ++ action)

/-- The statement `(*SQLiteDB).UpsertData` prepares (SQLite adapter,
lines 152-192). -/
def sqliteUpsertSQL (tableName : String) (columns : List ColumnMetadata) (mergeKeys : List String) : Option String :=
  match mergeKeys with
  | [] => none
  | _ :: _ =>
    let keySet := mergeKeys.map strLowerGo
    let placeholders := columns.map (fun _ => "?")
    let columnNames := columns.map (fun col => col.name)
    let updateAssignments :=
      (columns.filter (fun col => !(keySet.contains (strLowerGo col.name)))).map
        (fun col => "\"" ++ col.name ++ "\"=excluded.\"" ++ col.name ++ "\"")
    let conflictCols := mergeKeys.map (fun key => "\"" ++ key ++ "\"")
    let action :=
      if updateAssignments = [] then "DO NOTHING"
      else "DO UPDATE SET " ++ strJoin ", " updateAssignments
    some ("INSERT INTO \"" ++ tableName ++ "\" (\"" ++ strJoin "\", \"" columnNames
      ++ "\") VALUES (" ++ strJoin ", " placeholders
      ++ ") ON CONFLICT(" ++ strJoin ", " conflictCols ++ ") " ++ action)

/-- The statement `(*SQLServerDB).UpsertData` prepares (sqlserver.go
lines 146-194): a `MERGE` whose `WHEN MATCHED` clause is emitted only when
some non-key column exists. -/
def sqlserverMergeSQL (tableName : String) (columns : List ColumnMetadata) (mergeKeys : List String) : Option String :=
  match mergeKeys with
  | [] => none
  | _ :: _ =>
    let keySet := mergeKeys.map strLowerGo
    let placeholders := buildSQLServerPlaceholders columns.length
    let columnNames := columns.map (fun col => sqlserverQuoteIdentifier col.name)
    let sourceRefs := columns.map (fun col => "source." ++ sqlserverQuoteIdentifier col.name)
    let updateAssignments :=
      (columns.filter (fun col => !(keySet.contains (strLowerGo col.name)))).map
        (fun col => "target." ++ sqlserverQuoteIdentifier col.name ++ "=source." ++ sqlserverQuoteIdentifier col.name)
    let onClauses := mergeKeys.map
      (fun key => "target." ++ sqlserverQuoteIdentifier key ++ "=source." ++ sqlserverQuoteIdentifier key)
    let mergeSQL := "MERGE INTO " ++ sqlserverQuoteIdentifier tableName
      ++ " AS target USING (VALUES (" ++ strJoin ", " placeholders
      ++ ")) AS source (" ++ strJoin ", " columnNames
      ++ ") ON " ++ strJoin " AND " onClauses
    let mergeSQL :=
      if updateAssignments = [] then mergeSQL
      else mergeSQL ++ " WHEN MATCHED THEN UPDATE SET " ++ strJoin ", " updateAssignments
    some (mergeSQL ++ " WHEN NOT MATCHED THEN INSERT (" ++ strJoin ", " columnNames
      ++ ") VALUES (" ++ strJoin ", " sourceRefs ++ ");")

/-! ## Task SQL wrapping (`buildTaskSQL`, `trimSQL`) -/

/-- Dropping leading whitespace of a character list (Go `strings.TrimSpace`,
left half; the embedding covers the ASCII whitespace Go and Lean share). -/
def ltrimChars (cs : List Char) : List Char := cs.dropWhile Char.isWhitespace

/-- Dropping trailing whitespace of a character list. -/
def rtrimChars (cs : List Char) : List Char := (cs.reverse.dropWhile Char.isWhitespace).reverse

/-- Go `strings.TrimSpace` on a character list. -/
def trimChars (cs : List Char) : List Char := rtrimChars (ltrimChars cs)

/-- The loop of `trimSQL` (processor.go lines 312-314): while the text ends in
a semicolon, drop it and trim again.  `fuel` bounds the recursion; each pass
removes at least one character, so the text's length always suffices. -/
def trimSQLAux : Nat → List Char → List Char
  | 0, cs => cs
  | fuel + 1, cs =>
    if cs.getLast? = some semiChar then trimSQLAux fuel (trimChars cs.dropLast) else cs

/-- `trimSQL` (processor.go lines 310-316). -/
def trimSQL (sqlText : String) : String :=
  let t := trimChars sqlText.data
  String.mk (trimSQLAux t.length t)

/-- `buildTaskSQL` (processor.go lines 295-308): the data query and the
row-count query for a task. -/
def buildTaskSQL (baseSQL resumeKey resumeLiteral : String) : String × String :=
  let normalized := trimSQL baseSQL
  if resumeKey = "" then (normalized, normalized)
  else
    let wrapped := "SELECT * FROM (" ++ normalized ++ ") src"
    let wrapped :=
      if resumeLiteral = "" then wrapped
      else wrapped ++ " WHERE " ++ resumeKey ++ " > " ++ resumeLiteral
    (wrapped ++ " ORDER BY " ++ resumeKey, wrapped)

/-! ## Resume literal formatting (`formatResumeLiteral`, `quoteSQLString`) -/

/-- A scanned Go row value as `formatResumeLiteral` switches on it.  All the
signed widths (`int`, `int8` … `int64`) print with `%d` and collapse to
`goInt`; likewise the unsigned widths to `goUint`.  A float's `%v` rendering
is carried as data (binary floating-point formatting is outside the
embedding); `goTime` carries the six calendar fields the fixed layout
`2006-01-02 15:04:05` prints; `goBytes` carries `string(v)`; `goOther`
carries `fmt.Sprint(value)` of an unrecognized value. -/
inductive GoValue where
  | goInt (n : Int)
  | goUint (n : Nat)
  | goFloat (rendered : String)
  | goBool (b : Bool)
  | goTime (year month day hour minute second : Nat)
  | goBytes (s : String)
  | goString (s : String)
  | goOther (rendered : String)
deriving Repr, DecidableEq

/-- Go `strings.ReplaceAll(value, q, qq)` for the single-quote character:
every embedded quote is doubled. -/
def escapeQuotes : List Char → List Char
  | [] => []
  | c :: cs => if c == sqChar then sqChar :: sqChar :: escapeQuotes cs else c :: escapeQuotes cs

/-- `quoteSQLString` (processor.go lines 360-363). -/
def quoteSQLString (value : String) : String :=
  String.mk ([sqChar] ++ escapeQuotes value.data ++ [sqChar])

/-- Zero-padding to two digits, as the `01`/`02`/`15`/`04`/`05` layout
fields print. -/
def pad2 (n : Nat) : String := if n < 10 then "0" ++ natDecStr n else natDecStr n

/-- Zero-padding to four digits, as the `2006` layout field prints. -/
def pad4 (n : Nat) : String :=
  if n < 10 then "000" ++ natDecStr n
  else if n < 100 then "00" ++ natDecStr n
  else if n < 1000 then "0" ++ natDecStr n
  else natDecStr n

/-- Go `v.Format("2006-01-02 15:04:05")` on the six calendar fields. -/
def goTimeFormat (year month day hour minute second : Nat) : String :=
  pad4 year ++ "-" ++ pad2 month ++ "-" ++ pad2 day ++ " "
    ++ pad2 hour ++ ":" ++ pad2 minute ++ ":" ++ pad2 second

/-- `formatResumeLiteral` (processor.go lines 318-358).  The Go function
returns `(string, error)` but every branch returns a nil error, so the
embedding returns the string alone. -/
def formatResumeLiteral : GoValue → String
  | .goInt n => intDecStr n
  | .goUint n => natDecStr n
  | .goFloat rendered => rendered
  | .goBool b => if b then "1" else "0"
  | .goTime y mo d h mi s => quoteSQLString (goTimeFormat y mo d h mi s)
  | .goBytes s => quoteSQLString s
  | .goString s => quoteSQLString s
  | .goOther rendered => quoteSQLString rendered

/-! ## Task configuration (`config.TaskConfig`) -/

/-- `config.IndexConfig` (the fields the engine reads). -/
structure IndexConfig where
  name : String
  columns : List String := []
  unique : Bool := false
  whereClause : String := ""
deriving Repr, DecidableEq

/-- `config.TaskConfig` (the fields the engine reads; `sqlText` is the `SQL`
field). -/
structure TaskConfig where
  tableName : String
  sqlText : String := ""
  sourceDB : String := ""
  targetDB : String := ""
  ignore : Bool := false
  mode : String := ""
  batchSize : Int := 0
  maxRetries : Int := 0
  validate : String := ""
  mergeKeys : List String := []
  resumeKey : String := ""
  resumeFrom : String := ""
  stateFile : String := ""
  skipCreateTable : Bool := false
  indexes : List IndexConfig := []
deriving Repr, DecidableEq

/-- `(*Processor).taskKey` (state.go lines 71-73). -/
def taskKey (task : TaskConfig) : String :=
  task.sourceDB ++ ":" ++ task.targetDB ++ ":" ++ task.tableName

/-! ## Resume state updates (`updateResumeState`) -/

/-- `(*Processor).updateResumeState` (processor.go lines 252-275).  File I/O
(`loadStateFile`/`saveStateFile`) is modelled as succeeding; the interesting
behaviour is the early return, the nil check and the literal written.
`.ok none` means nothing was persisted, `.ok (some (key, literal))` that the
state entry `key` was set to `literal`, `.error` that the task aborts. -/
def updateResumeState (task : TaskConfig) (value : Option GoValue) :
    Except String (Option (String × String)) :=
  if task.resumeKey = "" || task.stateFile = "" then .ok none
  else
    match value with
    | none => .error ("resume_key '" ++ task.resumeKey ++ "' value is nil for table " ++ task.tableName)
    | some v => .ok (some (taskKey task, formatResumeLiteral v))

/-! ## Batch insert retry (`insertBatchWithRetry`) -/

/-- The retry loop of `insertBatchWithRetry` (processor.go lines 277-293),
with the per-attempt outcome of `targetDB.InsertData` abstracted as the
oracle `ins` (`none` = success).  `remaining` counts the attempts still
allowed, `attempt` the 1-based number of the current one.  The result is
(the returned error, how many calls were made, the seconds slept between
consecutive attempts, in order). -/
def insertBatchRetryAux (ins : Nat → Option String) : Nat → Nat → Option String × Nat × List Nat
  | 0, _ => (none, 0, [])
  | remaining + 1, attempt =>
    match ins attempt with
    | none => (none, 1, [])
    | some e =>
      if remaining = 0 then (some e, 1, [])
      else
        let r := insertBatchRetryAux ins remaining (attempt + 1)
        (r.1, r.2.1 + 1, attempt :: r.2.2)

/-- `(*Processor).insertBatchWithRetry`: `attempts = task.MaxRetries + 1`
attempts starting at attempt 1. -/
def insertBatchWithRetry (ins : Nat → Option String) (maxRetries : Int) :
    Option String × Nat × List Nat :=
  insertBatchRetryAux ins (maxRetries + 1).toNat 1

/-! ## The streaming loop (processor.go lines 150-195) -/

/-- A scanned row: one (possibly NULL) value per projected column. -/
abbrev Row : Type := List (Option GoValue)

/-- `batchSize := task.BatchSize; if batchSize <= 0 { batchSize = 1000 }`
(processor.go lines 150-153). -/
def batchSizeOf (task : TaskConfig) : Nat :=
  if task.batchSize ≤ 0 then 1000 else task.batchSize.toNat

/-- `lastResumeValue = row[resumeIndex]` when a resume column is selected
(processor.go lines 164-166), else the previous value. -/
def resumeValueOf (resumeIndex : Option Nat) (row : Row) (lastVal : Option GoValue) : Option GoValue :=
  match resumeIndex with
  | none => lastVal
  | some i => (List.get? (row : List (Option GoValue)) i).getD none

/-- The row loop of `processTask` (processor.go lines 158-195), one step per
source row.  `ins batchIndex attempt` is the outcome of attempt `attempt` of
`targetDB.InsertData` for the batch with 0-based index `batchIndex` — the
loop flushes through `insertBatchWithRetry` exactly as the source does and
persists the watermark through `updateResumeState` after every committed
batch.  On success the result carries the committed batches in order and the
processed-row count. -/
def processRowsAux (task : TaskConfig) (resumeIndex : Option Nat)
    (ins : Nat → Nat → Option String) (bs : Nat) :
    List Row → List Row → Nat → Nat → Option GoValue → List (List Row) →
    Except String (List (List Row) × Nat)
  | [], batch, batchIdx, processed, lastVal, flushed =>
    if batch.isEmpty then .ok (flushed, processed)
    else
      match (insertBatchWithRetry (ins batchIdx) task.maxRetries).1 with
      | some e => .error ("failed to insert final batch: " ++ e)
      | none =>
        match updateResumeState task lastVal with
        | .error e => .error e
        | .ok _ => .ok (flushed ++ [batch], processed)
  | row :: rest, batch, batchIdx, processed, lastVal, flushed =>
    let lastVal2 := resumeValueOf resumeIndex row lastVal
    let batch2 := batch ++ [row]
    let processed2 := processed + 1
    if batch2.length ≥ bs then
      match (insertBatchWithRetry (ins batchIdx) task.maxRetries).1 with
      | some e => .error ("failed to insert batch: " ++ e)
      | none =>
        match updateResumeState task lastVal2 with
        | .error e => .error e
        | .ok _ =>
          processRowsAux task resumeIndex ins bs rest [] (batchIdx + 1) processed2 lastVal2 (flushed ++ [batch2])
    else processRowsAux task resumeIndex ins bs rest batch2 batchIdx processed2 lastVal2 flushed

/-- The whole streaming phase of `processTask`: empty accumulator, batch
index 0, no watermark yet. -/
def processRows (task : TaskConfig) (resumeIndex : Option Nat)
    (ins : Nat → Nat → Option String) (rows : List Row) :
    Except String (List (List Row) × Nat) :=
  processRowsAux task resumeIndex ins (batchSizeOf task) rows [] 0 0 none []

/-! ## Validation and phase ordering (processor.go lines 123-131, 209-226) -/

/-- An observable phase of `processTask` after the query has been issued. -/
inductive PhaseEv where
  | getCountBefore
  | flushBatch (size : Nat)
  | createIndexes
  | getCountAfter
deriving Repr, DecidableEq

/-- `processTask` from the pre-load row count to the final validation
(processor.go lines 123-131 and 158-226), with the two
`GetTableRowCount` answers supplied as `countBefore`/`countAfter` and index
creation modelled as succeeding.  Returns the ordered phase trace and the
result (`ok` carries the processed-row count). -/
def processTaskPhases (task : TaskConfig) (resumeIndex : Option Nat)
    (ins : Nat → Nat → Option String) (countBefore countAfter : Int)
    (rows : List Row) : List PhaseEv × Except String Nat :=
  let preEvents := if task.validate = "row_count" then [PhaseEv.getCountBefore] else []
  match processRows task resumeIndex ins rows with
  | .error e => (preEvents, .error e)
  | .ok (flushed, processed) =>
    let evs := preEvents ++ flushed.map (fun b => PhaseEv.flushBatch b.length)
    let evs := if task.indexes.isEmpty then evs else evs ++ [PhaseEv.createIndexes]
    if task.validate = "row_count" then
      let evs := evs ++ [PhaseEv.getCountAfter]
      let inserted : Int := countAfter - countBefore
      if inserted ≠ (processed : Int) then
        (evs, .error ("row count validation failed for table " ++ task.tableName
          ++ ": expected " ++ natDecStr processed ++ " inserted rows but got " ++ intDecStr inserted))
      else (evs, .ok processed)
    else (evs, .ok processed)

/-! ## The run loop (`ProcessAllTasks`, processor.go lines 29-60) -/

/-- The error wrapping of processor.go line 51. -/
def wrapTaskErr (tableName e : String) : String :=
  "failed to process task " ++ tableName ++ ": " ++ e

/-- `(*Processor).ProcessAllTasks` with the outcome of `processTask`
abstracted as `run` (`none` = success).  Returns the table names of the
tasks actually attempted, in order, and the run-level result. -/
def processAllTasks (run : TaskConfig → Option String) :
    List TaskConfig → List String × Option String
  | [] => ([], none)
  | task :: rest =>
    if task.ignore then processAllTasks run rest
    else
      match run task with
      | some e => ([task.tableName], some (wrapTaskErr task.tableName e))
      | none =>
        let r := processAllTasks run rest
        (task.tableName :: r.1, r.2)

/-! ## Spec-modelled engine semantics for merge mode -/

/-- Modelled from the spec: the insert-or-update semantics of an executed
upsert/MERGE statement ("Merge/Upsert: insert-or-update semantics keyed by a
declared set of columns").  The executing SQL engine is not part of this
repository — src only builds statement strings — so the effect of one row is
modelled on an abstract table: a row whose merge-key projection matches an
existing row replaces it in place, otherwise it is appended. -/
def specUpsertRow (keyIdxs : List Nat) (table : List (List String)) (row : List String) :
    List (List String) :=
  if table.any (fun r => keyIdxs.map r.get? == keyIdxs.map row.get?) then
    table.map (fun r => if keyIdxs.map r.get? == keyIdxs.map row.get? then row else r)
  else table ++ [row]

/-- Modelled from the spec: a batch applied with upsert semantics, row by
row in order. -/
def specUpsertBatch (keyIdxs : List Nat) (table : List (List String))
    (batch : List (List String)) : List (List String) :=
  batch.foldl (specUpsertRow keyIdxs) table

/-- Modelled from the spec: a plain `INSERT` of a batch against a table whose
merge-key columns carry a unique key — the engine semantics behind the
spec's "no duplicate-key failure" requirement.  Inserting a row whose key
projection already exists raises the duplicate-key error an upsert is meant
to avoid. -/
def specPlainInsertBatch (keyIdxs : List Nat) (table : List (List String)) :
    List (List String) → Except String (List (List String))
  | [] => .ok table
  | row :: rest =>
    if table.any (fun r => keyIdxs.map r.get? == keyIdxs.map row.get?) then
      .error "duplicate key"
    else specPlainInsertBatch keyIdxs (table ++ [row]) rest

/-- The SQL statement the pipeline prepares when it flushes a batch of a
task to a MySQL target: `insertBatchWithRetry` (processor.go line 280)
always invokes `targetDB.InsertData` — the `TargetDB` interface exposes no
upsert operation and `task.Mode` is never consulted on the flush path — so
the statement is the plain `INSERT` of mysql.go for every mode. -/
def flushSQLMySQL (task : TaskConfig) (columns : List ColumnMetadata) : String :=
  mysqlInsertSQL task.tableName columns

/-! ## Spec-side formulations used by the theorems -/

/-- Spec-side rendering of "each embedded single quote doubled": every
character maps to itself, a quote to two quotes. -/
def specSQDouble (cs : List Char) : List Char :=
  cs.flatMap (fun c => if c = sqChar then [sqChar, sqChar] else [c])

/-- No single-quote character occurs in the string. -/
abbrev noSq (s : String) : Prop := ∀ c ∈ s.data, c ≠ sqChar

/-- Spec-side chunking: the first `k` elements, then the chunks of the rest;
`fuel` bounds the recursion and the list's length always suffices for
`0 < k`. -/
def specChunksAux (k : Nat) : Nat → List α → List (List α)
  | 0, _ => []
  | _ + 1, [] => []
  | fuel + 1, c :: cs => (c :: cs).take k :: specChunksAux k fuel ((c :: cs).drop k)

/-- Spec-side chunking of a list into runs of `k` with a possibly shorter
final run. -/
def specChunks (k : Nat) (l : List α) : List (List α) := specChunksAux k l.length l

/-! # Theorems -/

/-! ## Generic helper lemmas -/

theorem length_dropWhile_le (p : Char → Bool) (l : List Char) :
    (l.dropWhile p).length ≤ l.length := by
  induction l with
  | nil => simp [List.dropWhile]
  | cons c cs ih =>
    rw [List.dropWhile_cons]
    split
    · exact Nat.le_succ_of_le ih
    · exact Nat.le_refl _

theorem trimChars_length_le (cs : List Char) : (trimChars cs).length ≤ cs.length := by
  unfold trimChars rtrimChars ltrimChars
  calc ((cs.dropWhile Char.isWhitespace).reverse.dropWhile Char.isWhitespace).reverse.length
      = ((cs.dropWhile Char.isWhitespace).reverse.dropWhile Char.isWhitespace).length := by
        rw [List.length_reverse]
    _ ≤ (cs.dropWhile Char.isWhitespace).reverse.length := length_dropWhile_le _ _
    _ = (cs.dropWhile Char.isWhitespace).length := by rw [List.length_reverse]
    _ ≤ cs.length := length_dropWhile_le _ _

theorem trimSQLAux_getLast (fuel : Nat) :
    ∀ cs : List Char, cs.length ≤ fuel →
      (trimSQLAux fuel cs).getLast? ≠ some semiChar := by
  induction fuel with
  | zero =>
    intro cs h
    have hnil : cs = [] := List.length_eq_zero.mp (Nat.le_zero.mp h)
    subst hnil
    simp [trimSQLAux]
  | succ n ih =>
    intro cs h
    rw [trimSQLAux]
    split
    · apply ih
      rename_i hlast
      have hne : cs ≠ [] := by
        intro he; subst he; simp at hlast
      have h1 : cs.dropLast.length = cs.length - 1 := List.length_dropLast cs
      have h2 : (trimChars cs.dropLast).length ≤ cs.dropLast.length := trimChars_length_le _
      have h3 : 1 ≤ cs.length := Nat.one_le_iff_ne_zero.mpr (by
        intro hz; exact hne (List.length_eq_zero.mp hz))
      omega
    · assumption

theorem trimSQL_no_trailing_semi (s : String) :
    (trimSQL s).data.getLast? ≠ some semiChar := by
  unfold trimSQL
  exact trimSQLAux_getLast _ _ (Nat.le_refl _)

theorem strAppend_data (s t : String) : (s ++ t).data = s.data ++ t.data := rfl

theorem strAppend_empty (s : String) : s ++ "" = s := by
  apply String.ext
  rw [strAppend_data]
  simp

theorem strAppend_assoc (a b c : String) : a ++ b ++ c = a ++ (b ++ c) := by
  apply String.ext
  simp [strAppend_data]

/-! ## C3: the wrapped resume query -/

/-- C3: for a non-empty resume key the data query is the trimmed base SQL
wrapped as a derived table `SELECT * FROM (base) src`, with
`WHERE key > literal` appended exactly when a literal is present and
suffixed with `ORDER BY key`; the row-count query is the same wrapped query
without the `ORDER BY`; with an empty resume key both queries equal the
trimmed base, and trimming leaves no trailing semicolon. -/
theorem c3_buildTaskSQL_shape (baseSQL resumeKey resumeLiteral : String) :
    (resumeKey = "" →
      buildTaskSQL baseSQL resumeKey resumeLiteral = (trimSQL baseSQL, trimSQL baseSQL))
    ∧ (resumeKey ≠ "" →
        (buildTaskSQL baseSQL resumeKey resumeLiteral).2
          = "SELECT * FROM (" ++ trimSQL baseSQL ++ ") src"
            ++ (if resumeLiteral = "" then ""
                else " WHERE " ++ resumeKey ++ " > " ++ resumeLiteral)
        ∧ (buildTaskSQL baseSQL resumeKey resumeLiteral).1
          = (buildTaskSQL baseSQL resumeKey resumeLiteral).2 ++ " ORDER BY " ++ resumeKey)
    ∧ (trimSQL baseSQL).data.getLast? ≠ some semiChar := by
  refine ⟨?_, ?_, trimSQL_no_trailing_semi baseSQL⟩
  · intro hk
    simp [buildTaskSQL, hk]
  · intro hk
    by_cases hl : resumeLiteral = ""
    · simp [buildTaskSQL, hk, hl, strAppend_empty]
    · constructor
      · simp only [buildTaskSQL, if_neg hk, if_neg hl]
        simp only [strAppend_assoc]
      · simp only [buildTaskSQL, if_neg hk, if_neg hl]

/-! ## C9: resume literal rendering -/

theorem digitChar_ne_sq (d : Nat) (hd : d < 10) : digitChar d ≠ sqChar := by
  interval_cases d <;> decide

theorem natDecAux_no_sq (fuel : Nat) :
    ∀ n : Nat, ∀ c ∈ natDecAux fuel n, c ≠ sqChar := by
  induction fuel with
  | zero => intro n c hc; simp [natDecAux] at hc
  | succ m ih =>
    intro n c hc
    rw [natDecAux] at hc
    split at hc
    · rename_i hn
      simp at hc
      subst hc
      exact digitChar_ne_sq n hn
    · rcases List.mem_append.mp hc with h | h
      · exact ih _ c h
      · simp at h
        subst h
        exact digitChar_ne_sq _ (Nat.mod_lt _ (by norm_num))

theorem natDecStr_noSq (n : Nat) : noSq (natDecStr n) := by
  intro c hc
  exact natDecAux_no_sq _ _ c hc

theorem intDecStr_noSq (i : Int) : noSq (intDecStr i) := by
  intro c hc
  unfold intDecStr at hc
  split at hc
  · rcases List.mem_append.mp hc with h | h
    · simp at h
      subst h
      decide
    · exact natDecAux_no_sq _ _ c h
  · exact natDecAux_no_sq _ _ c hc

theorem noSq_append (a b : String) (ha : noSq a) (hb : noSq b) : noSq (a ++ b) := by
  intro c hc
  rw [strAppend_data] at hc
  rcases List.mem_append.mp hc with h | h
  · exact ha c h
  · exact hb c h

theorem pad2_noSq (n : Nat) : noSq (pad2 n) := by
  unfold pad2
  split
  · exact noSq_append _ _ (by decide) (natDecStr_noSq n)
  · exact natDecStr_noSq n

theorem pad4_noSq (n : Nat) : noSq (pad4 n) := by
  unfold pad4
  split
  · exact noSq_append _ _ (by decide) (natDecStr_noSq n)
  · split
    · exact noSq_append _ _ (by decide) (natDecStr_noSq n)
    · split
      · exact noSq_append _ _ (by decide) (natDecStr_noSq n)
      · exact natDecStr_noSq n

theorem goTimeFormat_noSq (y mo d h mi s : Nat) : noSq (goTimeFormat y mo d h mi s) := by
  unfold goTimeFormat
  refine noSq_append _ _ ?_ (pad2_noSq s)
  refine noSq_append _ _ ?_ (by decide)
  refine noSq_append _ _ ?_ (pad2_noSq mi)
  refine noSq_append _ _ ?_ (by decide)
  refine noSq_append _ _ ?_ (pad2_noSq h)
  refine noSq_append _ _ ?_ (by decide)
  refine noSq_append _ _ ?_ (pad2_noSq d)
  refine noSq_append _ _ ?_ (by decide)
  refine noSq_append _ _ ?_ (pad2_noSq mo)
  refine noSq_append _ _ ?_ (by decide)
  exact pad4_noSq y

theorem escapeQuotes_of_noSq : ∀ cs : List Char, (∀ c ∈ cs, c ≠ sqChar) → escapeQuotes cs = cs := by
  intro cs h
  induction cs with
  | nil => rfl
  | cons c rest ih =>
    have hc : c ≠ sqChar := h c (List.mem_cons_self c rest)
    rw [escapeQuotes, if_neg (by simp [hc])]
    rw [ih (fun x hx => h x (List.mem_cons_of_mem c hx))]

theorem escapeQuotes_eq_specSQDouble : ∀ cs : List Char, escapeQuotes cs = specSQDouble cs := by
  intro cs
  induction cs with
  | nil => rfl
  | cons c rest ih =>
    by_cases hc : c = sqChar
    · subst hc
      simp [escapeQuotes, specSQDouble, List.flatMap_cons] at ih ⊢
      exact ih
    · simp [escapeQuotes, specSQDouble, List.flatMap_cons, hc] at ih ⊢
      exact ih

/-- C9: `formatResumeLiteral` renders every watermark scalar
deterministically: signed and unsigned integers as plain (quote-free)
decimal numerals, floats as their unquoted `%v` numeral, booleans as `1`/`0`,
times as a single-quoted `YYYY-MM-DD HH:MM:SS` literal, and every string,
byte slice or unrecognized value as a single-quoted literal with each
embedded single quote doubled. -/
theorem c9_formatResumeLiteral_shape :
    (∀ n : Int, formatResumeLiteral (.goInt n) = intDecStr n ∧ noSq (intDecStr n))
    ∧ (∀ n : Nat, formatResumeLiteral (.goUint n) = natDecStr n ∧ noSq (natDecStr n))
    ∧ (∀ rendered : String, formatResumeLiteral (.goFloat rendered) = rendered)
    ∧ (formatResumeLiteral (.goBool true) = "1" ∧ formatResumeLiteral (.goBool false) = "0")
    ∧ (∀ y mo d h mi s : Nat,
        formatResumeLiteral (.goTime y mo d h mi s)
          = String.mk ([sqChar] ++ (goTimeFormat y mo d h mi s).data ++ [sqChar]))
    ∧ (∀ s : String, formatResumeLiteral (.goString s)
        = String.mk ([sqChar] ++ specSQDouble s.data ++ [sqChar]))
    ∧ (∀ s : String, formatResumeLiteral (.goBytes s)
        = String.mk ([sqChar] ++ specSQDouble s.data ++ [sqChar]))
    ∧ (∀ rendered : String, formatResumeLiteral (.goOther rendered)
        = String.mk ([sqChar] ++ specSQDouble rendered.data ++ [sqChar])) := by
  refine ⟨fun n => ⟨rfl, intDecStr_noSq n⟩,
          fun n => ⟨rfl, natDecStr_noSq n⟩,
          fun rendered => rfl,
          ⟨rfl, rfl⟩, ?_, ?_, ?_, ?_⟩
  · intro y mo d h mi s
    show quoteSQLString (goTimeFormat y mo d h mi s) = _
    unfold quoteSQLString
    rw [escapeQuotes_of_noSq _ (goTimeFormat_noSq y mo d h mi s)]
  · intro s
    show quoteSQLString s = _
    unfold quoteSQLString
    rw [escapeQuotes_eq_specSQDouble]
  · intro s
    show quoteSQLString s = _
    unfold quoteSQLString
    rw [escapeQuotes_eq_specSQDouble]
  · intro rendered
    show quoteSQLString rendered = _
    unfold quoteSQLString
    rw [escapeQuotes_eq_specSQDouble]

/-! ## C6: position of the BOOL keyword test -/

/-- C6 counterexample: the uppercased type name `BOOLINT` contains `BOOL`,
yet both cited mappers classify it by the earlier `INT` test and render
`BIGINT`, not the boolean type — the `BOOL` test is the last keyword test,
not the first. -/
theorem c6_counterexample :
    strContainsGo (typeNameOf { name := "flag", databaseType := "BOOLINT" }) "BOOL" = true
    ∧ mapToMySQLType { name := "flag", databaseType := "BOOLINT" } = "BIGINT"
    ∧ mapToSQLServerType { name := "flag", databaseType := "BOOLINT" } = "BIGINT"
    ∧ mapToMySQLType { name := "flag", databaseType := "BOOLINT" } ≠ "TINYINT(1)"
    ∧ mapToSQLServerType { name := "flag", databaseType := "BOOLINT" } ≠ "BIT" := by
  refine ⟨by decide, rfl, rfl, by decide, by decide⟩

/-- C6 (amended): the `BOOL` keyword is tested after every other keyword
class, so a column whose uppercased type name contains `BOOL` and none of
the earlier keywords (`INT`; `DOUBLE`/`FLOAT`/`REAL`;
`DEC`/`NUMERIC`/`NUMBER`; `CHAR`/`TEXT`/`CLOB`/`STRING`; `DATE`/`TIME`;
`BLOB`/`BINARY`/`RAW`) renders as the dialect's boolean type in both cited
mappers. -/
theorem c6_bool_maps_to_boolean (col : ColumnMetadata)
    (hbool : strContainsGo (typeNameOf col) "BOOL" = true)
    (hint : strContainsGo (typeNameOf col) "INT" = false)
    (hdouble : strContainsGo (typeNameOf col) "DOUBLE" = false)
    (hfloat : strContainsGo (typeNameOf col) "FLOAT" = false)
    (hreal : strContainsGo (typeNameOf col) "REAL" = false)
    (hdec : strContainsGo (typeNameOf col) "DEC" = false)
    (hnumeric : strContainsGo (typeNameOf col) "NUMERIC" = false)
    (hnumber : strContainsGo (typeNameOf col) "NUMBER" = false)
    (hchar : strContainsGo (typeNameOf col) "CHAR" = false)
    (htext : strContainsGo (typeNameOf col) "TEXT" = false)
    (hclob : strContainsGo (typeNameOf col) "CLOB" = false)
    (hstring : strContainsGo (typeNameOf col) "STRING" = false)
    (hdate : strContainsGo (typeNameOf col) "DATE" = false)
    (htime : strContainsGo (typeNameOf col) "TIME" = false)
    (hblob : strContainsGo (typeNameOf col) "BLOB" = false)
    (hbinary : strContainsGo (typeNameOf col) "BINARY" = false)
    (hraw : strContainsGo (typeNameOf col) "RAW" = false) :
    mapToMySQLType col = "TINYINT(1)" ∧ mapToSQLServerType col = "BIT" := by
  constructor <;>
    simp [mapToMySQLType, mapToSQLServerType, hbool, hint, hdouble, hfloat, hreal, hdec,
      hnumeric, hnumber, hchar, htext, hclob, hstring, hdate, htime, hblob, hbinary, hraw]

/-- C6 witness: a plain `BOOL` column renders as the boolean type in both
mappers, through the amended theorem. -/
theorem c6_bool_maps_to_boolean_witness :
    mapToMySQLType { name := "b", databaseType := "BOOL" } = "TINYINT(1)"
    ∧ mapToSQLServerType { name := "b", databaseType := "BOOL" } = "BIT" :=
  c6_bool_maps_to_boolean { name := "b", databaseType := "BOOL" }
    (by decide) (by decide) (by decide) (by decide) (by decide) (by decide) (by decide)
    (by decide) (by decide) (by decide) (by decide) (by decide) (by decide) (by decide)
    (by decide) (by decide) (by decide)

/-! ## C7: the all-key upsert degenerates differently per dialect -/

/-- C7 counterexample: with a single column `id` that is also the merge key,
the PostgreSQL and SQLite builders emit `DO NOTHING` (no update clause at
all) and the SQL Server builder omits the `WHEN MATCHED` clause; only MySQL
degenerates to a self-assignment. -/
theorem c7_counterexample :
    postgresUpsertSQL "t" [{ name := "id" }] ["id"]
      = some "INSERT INTO \"t\" (\"id\") VALUES ($1) ON CONFLICT(\"id\") DO NOTHING"
    ∧ sqliteUpsertSQL "t" [{ name := "id" }] ["id"]
      = some "INSERT INTO \"t\" (\"id\") VALUES (?) ON CONFLICT(\"id\") DO NOTHING"
    ∧ sqlserverMergeSQL "t" [{ name := "id" }] ["id"]
      = some "MERGE INTO [t] AS target USING (VALUES (@p1)) AS source ([id]) ON target.[id]=source.[id] WHEN NOT MATCHED THEN INSERT ([id]) VALUES (source.[id]);"
    ∧ strContainsGo "INSERT INTO \"t\" (\"id\") VALUES ($1) ON CONFLICT(\"id\") DO NOTHING" "UPDATE" = false
    ∧ strContainsGo "MERGE INTO [t] AS target USING (VALUES (@p1)) AS source ([id]) ON target.[id]=source.[id] WHEN NOT MATCHED THEN INSERT ([id]) VALUES (source.[id]);" "WHEN MATCHED" = false
    ∧ mysqlUpsertSQL "t" [{ name := "id" }] ["id"]
      = some "INSERT INTO `t` (`id`) VALUES (?) ON DUPLICATE KEY UPDATE `id`=`id`" := by
  refine ⟨rfl, rfl, rfl, by decide, by decide, rfl⟩

/-- C7 (amended): when every result-set column is a merge key, only the
MySQL builder keeps an update clause, degenerating to a self-assignment of
the first merge key; the PostgreSQL and SQLite builders replace the update
action by `DO NOTHING`, and the SQL Server builder omits the `WHEN MATCHED`
clause entirely. -/
theorem c7_all_key_upsert_shapes (table : String) (cols : List ColumnMetadata)
    (k0 : String) (ks : List String)
    (hall : ∀ col ∈ cols, ((k0 :: ks).map strLowerGo).contains (strLowerGo col.name) = true) :
    mysqlUpsertSQL table cols (k0 :: ks)
      = some ("INSERT INTO " ++ mysqlQuoteIdentifier table ++ " ("
          ++ strJoin ", " (cols.map (fun col => mysqlQuoteIdentifier col.name))
          ++ ") VALUES (" ++ strJoin ", " (cols.map (fun _ => "?"))
          ++ ") ON DUPLICATE KEY UPDATE "
          ++ (mysqlQuoteIdentifier k0 ++ "=" ++ mysqlQuoteIdentifier k0))
    ∧ postgresUpsertSQL table cols (k0 :: ks)
      = some ("INSERT INTO " ++ postgresQuoteIdentifier table ++ " ("
          ++ strJoin ", " (cols.map (fun col => postgresQuoteIdentifier col.name))
          ++ ") VALUES (" ++ strJoin ", " (buildPostgresPlaceholders cols.length)
          ++ ") ON CONFLICT(" ++ strJoin ", " ((k0 :: ks).map postgresQuoteIdentifier)
          ++ ") " ++ "DO NOTHING")
    ∧ sqliteUpsertSQL table cols (k0 :: ks)
      = some ("INSERT INTO \"" ++ table ++ "\" (\""
          ++ strJoin "\", \"" (cols.map (fun col => col.name))
          ++ "\") VALUES (" ++ strJoin ", " (cols.map (fun _ => "?"))
          ++ ") ON CONFLICT(" ++ strJoin ", " ((k0 :: ks).map (fun key => "\"" ++ key ++ "\""))
          ++ ") " ++ "DO NOTHING")
    ∧ sqlserverMergeSQL table cols (k0 :: ks)
      = some ("MERGE INTO " ++ sqlserverQuoteIdentifier table
          ++ " AS target USING (VALUES (" ++ strJoin ", " (buildSQLServerPlaceholders cols.length)
          ++ ")) AS source (" ++ strJoin ", " (cols.map (fun col => sqlserverQuoteIdentifier col.name))
          ++ ") ON " ++ strJoin " AND " ((k0 :: ks).map
              (fun key => "target." ++ sqlserverQuoteIdentifier key ++ "=source." ++ sqlserverQuoteIdentifier key))
          ++ " WHEN NOT MATCHED THEN INSERT ("
          ++ strJoin ", " (cols.map (fun col => sqlserverQuoteIdentifier col.name))
          ++ ") VALUES (" ++ strJoin ", " (cols.map (fun col => "source." ++ sqlserverQuoteIdentifier col.name))
          ++ ");") := by
  have hfilter :
      cols.filter (fun col => !(((k0 :: ks).map strLowerGo).contains (strLowerGo col.name))) = [] := by
    apply List.filter_eq_nil_iff.mpr
    intro col hc
    rw [hall col hc]
    decide
  refine ⟨?_, ?_, ?_, ?_⟩
  · simp only [mysqlUpsertSQL]
    rw [hfilter]
    simp [strJoin]
  · simp only [postgresUpsertSQL]
    rw [hfilter]
    simp
  · simp only [sqliteUpsertSQL]
    rw [hfilter]
    simp
  · simp only [sqlserverMergeSQL]
    rw [hfilter]
    simp

/-- C7 witness: the amended shapes at the single-column input. -/
theorem c7_all_key_upsert_shapes_witness :
    mysqlUpsertSQL "t" [{ name := "id" }] ["id"]
      = some "INSERT INTO `t` (`id`) VALUES (?) ON DUPLICATE KEY UPDATE `id`=`id`"
    ∧ postgresUpsertSQL "t" [{ name := "id" }] ["id"]
      = some "INSERT INTO \"t\" (\"id\") VALUES ($1) ON CONFLICT(\"id\") DO NOTHING" := by
  have h := c7_all_key_upsert_shapes "t" [{ name := "id" }] "id" [] (by decide)
  exact ⟨h.1.trans (by decide), h.2.1.trans (by decide)⟩

/-! ## C2: the run loop stops at the first task error -/

/-- C2 counterexample: two enabled tasks where the first fails — the second
is never attempted (its table name is absent from the attempted list), and
the run result is the first wrapped error. -/
theorem c2_counterexample :
    processAllTasks (fun t => if t.tableName = "a" then some "boom" else none)
        [{ tableName := "a" }, { tableName := "b" }]
      = (["a"], some "failed to process task a: boom")
    ∧ "b" ∉ (processAllTasks (fun t => if t.tableName = "a" then some "boom" else none)
        [{ tableName := "a" }, { tableName := "b" }]).1 := by
  refine ⟨rfl, by decide⟩

/-- C2 (amended): an error in one task aborts the whole run immediately:
the attempted tasks are exactly the enabled tasks up to and including the
first failing one, and `ProcessAllTasks` returns the first task error,
wrapped with that task's table name; subsequent tasks are not attempted. -/
theorem c2_first_error_aborts_run (run : TaskConfig → Option String) (tasks : List TaskConfig) :
    processAllTasks run tasks
      = (((tasks.filter (fun t => !t.ignore)).takeWhile (fun t => (run t).isNone)).map
            (fun t => t.tableName)
          ++ (((tasks.filter (fun t => !t.ignore)).dropWhile (fun t => (run t).isNone)).take 1).map
            (fun t => t.tableName),
         (tasks.filter (fun t => !t.ignore)).findSome?
            (fun t => (run t).map (fun e => wrapTaskErr t.tableName e))) := by
  induction tasks with
  | nil => rfl
  | cons t rest ih =>
    by_cases hi : t.ignore
    · simp [processAllTasks, hi, List.filter_cons, ih]
    · cases hr : run t with
      | some e =>
        simp [processAllTasks, hi, hr, List.filter_cons, List.takeWhile_cons,
          List.dropWhile_cons, List.findSome?_cons]
      | none =>
        simp [processAllTasks, hi, hr, List.filter_cons, List.takeWhile_cons,
          List.dropWhile_cons, List.findSome?_cons, ih]

/-! ## C5: the retry policy -/

theorem retryAux_calls_le (ins : Nat → Option String) :
    ∀ rem att, (insertBatchRetryAux ins rem att).2.1 ≤ rem := by
  intro rem
  induction rem with
  | zero => intro att; simp [insertBatchRetryAux]
  | succ n ih =>
    intro att
    cases h : ins att with
    | none => simp [insertBatchRetryAux, h]
    | some e =>
      by_cases hn : n = 0
      · simp [insertBatchRetryAux, h, hn]
      · simp only [insertBatchRetryAux, h, if_neg hn]
        have := ih (att + 1)
        omega

theorem retryAux_success (ins : Nat → Option String) :
    ∀ rem att k, att ≤ k → k < att + rem → ins k = none →
      (∀ j, att ≤ j → j < k → ins j ≠ none) →
      insertBatchRetryAux ins rem att = (none, k - att + 1, List.range' att (k - att)) := by
  intro rem
  induction rem with
  | zero => intro att k h1 h2 _ _; omega
  | succ n ih =>
    intro att k h1 h2 hk hmin
    by_cases he : att = k
    · subst he
      simp [insertBatchRetryAux, hk, Nat.sub_self]
    · have hlt : att < k := Nat.lt_of_le_of_ne h1 he
      have hsome : ins att ≠ none := hmin att (Nat.le_refl att) hlt
      obtain ⟨e, he2⟩ : ∃ e, ins att = some e := by
        cases h : ins att with
        | none => exact absurd h hsome
        | some e => exact ⟨e, rfl⟩
      have hn : n ≠ 0 := by omega
      simp only [insertBatchRetryAux, he2, if_neg hn]
      have ihres := ih (att + 1) k (by omega) (by omega) hk
        (fun j hj1 hj2 => hmin j (by omega) hj2)
      rw [ihres]
      have h5 : k - att = (k - (att + 1)) + 1 := by omega
      rw [h5, List.range'_succ]

theorem retryAux_all_fail (ins : Nat → Option String) :
    ∀ rem att, 0 < rem → (∀ j, att ≤ j → j < att + rem → ins j ≠ none) →
      insertBatchRetryAux ins rem att = (ins (att + rem - 1), rem, List.range' att (rem - 1)) := by
  intro rem
  induction rem with
  | zero => intro att h; omega
  | succ n ih =>
    intro att _ hall2
    obtain ⟨e, he⟩ : ∃ e, ins att = some e := by
      cases h : ins att with
      | none => exact absurd h (hall2 att (Nat.le_refl att) (by omega))
      | some e => exact ⟨e, rfl⟩
    by_cases hn : n = 0
    · subst hn
      simp [insertBatchRetryAux, he, Nat.add_sub_cancel]
    · have ihres := ih (att + 1) (by omega) (fun j h1 h2 => hall2 j (by omega) (by omega))
      simp only [insertBatchRetryAux, he, if_neg hn]
      rw [ihres]
      have h5 : att + 1 + n - 1 = att + (n + 1) - 1 := by omega
      rw [h5]
      have h7 : n + 1 - 1 = (n - 1) + 1 := by omega
      rw [h7, List.range'_succ]

theorem retryAux_fst_none (ins : Nat → Option String) (h : ∀ a, ins a = none) :
    ∀ rem att, (insertBatchRetryAux ins rem att).1 = none := by
  intro rem att
  cases rem with
  | zero => rfl
  | succ n => simp [insertBatchRetryAux, h att]

theorem insertBatchWithRetry_fst_none (ins : Nat → Option String) (m : Int)
    (h : ∀ a, ins a = none) : (insertBatchWithRetry ins m).1 = none :=
  retryAux_fst_none ins h _ _

theorem processRowsAux_first_flush_error (task : TaskConfig) (ri : Option Nat)
    (ins : Nat → Nat → Option String) (bs : Nat) :
    ∀ (rows batch : List Row) (bIdx proc : Nat) (lv : Option GoValue) (flushed : List (List Row)),
      (rows ≠ [] ∨ batch ≠ []) →
      (insertBatchWithRetry (ins bIdx) task.maxRetries).1.isSome = true →
      ∃ e, processRowsAux task ri ins bs rows batch bIdx proc lv flushed = .error e := by
  intro rows
  induction rows with
  | nil =>
    intro batch bIdx proc lv flushed hne hsome
    have hb : batch ≠ [] := by
      rcases hne with h | h
      · exact absurd rfl h
      · exact h
    obtain ⟨e, he⟩ := Option.isSome_iff_exists.mp hsome
    cases batch with
    | nil => exact absurd rfl hb
    | cons b bs2 =>
      refine ⟨"failed to insert final batch: " ++ e, ?_⟩
      simp [processRowsAux, he]
  | cons row rest ih =>
    intro batch bIdx proc lv flushed _ hsome
    obtain ⟨e, he⟩ := Option.isSome_iff_exists.mp hsome
    by_cases hfill : batch.length + 1 ≥ bs
    · refine ⟨"failed to insert batch: " ++ e, ?_⟩
      simp [processRowsAux, hfill, he]
    · have hrec := ih (batch ++ [row]) bIdx (proc + 1) (resumeValueOf ri row lv) flushed
        (Or.inr (by simp)) hsome
      obtain ⟨e2, he2⟩ := hrec
      refine ⟨e2, ?_⟩
      simp only [processRowsAux]
      rw [if_neg (by simp; omega)]
      exact he2

/-- C5: with `max_retries = r ≥ 0` the flush makes at most `r + 1` insert
attempts; it returns success at the first attempt that succeeds, having
slept `1, 2, …` seconds between consecutive attempts; after `r + 1`
consecutive failures it returns the last attempt's error; and a flush whose
retries are exhausted aborts the whole task (the streaming loop returns an
error). -/
theorem c5_insertBatchWithRetry_policy (ins : Nat → Option String) (r : Nat) :
    (insertBatchWithRetry ins (r : Int)).2.1 ≤ r + 1
    ∧ (∀ k, 1 ≤ k → k ≤ r + 1 → ins k = none → (∀ j, 1 ≤ j → j < k → ins j ≠ none) →
        insertBatchWithRetry ins (r : Int) = (none, k, List.range' 1 (k - 1)))
    ∧ ((∀ j, 1 ≤ j → j ≤ r + 1 → ins j ≠ none) →
        insertBatchWithRetry ins (r : Int) = (ins (r + 1), r + 1, List.range' 1 r))
    ∧ (∀ (task : TaskConfig) (resumeIndex : Option Nat) (insB : Nat → Nat → Option String)
        (rows : List Row), rows ≠ [] →
        (insertBatchWithRetry (insB 0) task.maxRetries).1.isSome = true →
        ∃ e, processRows task resumeIndex insB rows = .error e) := by
  have hto : (((r : Int)) + 1).toNat = r + 1 := by omega
  refine ⟨?_, ?_, ?_, ?_⟩
  · unfold insertBatchWithRetry
    rw [hto]
    exact retryAux_calls_le ins (r + 1) 1
  · intro k hk1 hk2 hnone hmin
    unfold insertBatchWithRetry
    rw [hto]
    have h := retryAux_success ins (r + 1) 1 k hk1 (by omega) hnone hmin
    rw [h]
    have h2 : k - 1 + 1 = k := by omega
    rw [h2]
  · intro hfail
    unfold insertBatchWithRetry
    rw [hto]
    have h := retryAux_all_fail ins (r + 1) 1 (by omega) (fun j h1 h2 => hfail j h1 (by omega))
    rw [h]
    have h5 : 1 + (r + 1) - 1 = r + 1 := by omega
    have h6 : r + 1 - 1 = r := by omega
    rw [h5, h6]
  · intro task resumeIndex insB rows hrows hsome
    exact processRowsAux_first_flush_error task resumeIndex insB (batchSizeOf task)
      rows [] 0 0 none [] (Or.inl hrows) hsome

/-- C5 witness: with `max_retries = 5` and an insert that fails twice then
succeeds on attempt 3, the flush returns success after exactly 3 calls,
having slept 1 then 2 seconds. -/
theorem c5_insertBatchWithRetry_policy_witness :
    insertBatchWithRetry (fun k => if k == 3 then none else some "boom") (5 : Int)
      = (none, 3, [1, 2]) := by
  have hmin : ∀ j, 1 ≤ j → j < 3 → (fun k => if k == 3 then none else some "boom") j ≠ none := by
    intro j h1 h2
    interval_cases j <;> decide
  exact (c5_insertBatchWithRetry_policy (fun k => if k == 3 then none else some "boom") 5).2.1 3
    (by decide) (by decide) (by decide) hmin

/-! ## C10: batch accumulation as chunking -/

theorem specChunksAux_nil (k : Nat) : ∀ fuel, specChunksAux k fuel ([] : List α) = [] := by
  intro fuel
  cases fuel <;> rfl

theorem specChunksAux_fuel (k : Nat) (hk : 0 < k) :
    ∀ fuel fuel2 (l : List α), l.length ≤ fuel → l.length ≤ fuel2 →
      specChunksAux k fuel l = specChunksAux k fuel2 l := by
  intro fuel
  induction fuel with
  | zero =>
    intro fuel2 l h1 _
    have hl : l = [] := List.length_eq_zero.mp (by omega)
    subst hl
    rw [specChunksAux_nil, specChunksAux_nil]
  | succ n ih =>
    intro fuel2 l h1 h2
    cases l with
    | nil => rw [specChunksAux_nil, specChunksAux_nil]
    | cons c cs =>
      cases fuel2 with
      | zero => simp at h2
      | succ m =>
        simp only [specChunksAux]
        congr 1
        apply ih
        · rw [List.length_drop]
          simp only [List.length_cons] at h1 ⊢
          omega
        · rw [List.length_drop]
          simp only [List.length_cons] at h2 ⊢
          omega

theorem specChunks_cons (k : Nat) (hk : 0 < k) (l : List α) (hl : l ≠ []) :
    specChunks k l = l.take k :: specChunks k (l.drop k) := by
  cases l with
  | nil => exact absurd rfl hl
  | cons c cs =>
    show specChunksAux k (c :: cs).length (c :: cs) = _
    simp only [List.length_cons, specChunksAux]
    congr 1
    apply specChunksAux_fuel k hk
    · rw [List.length_drop]
      simp only [List.length_cons]
      omega
    · exact Nat.le_refl _

theorem specChunks_short (k : Nat) (l : List α) (hl : l ≠ []) (hlen : l.length ≤ k) :
    specChunks k l = [l] := by
  have hk : 0 < k := by
    have : 0 < l.length := List.length_pos.mpr hl
    omega
  rw [specChunks_cons k hk l hl, List.take_of_length_le hlen, List.drop_eq_nil_of_le hlen]
  rfl

theorem specChunks_ne_nil (k : Nat) (l : List α) (hl : l ≠ []) : specChunks k l ≠ [] := by
  cases l with
  | nil => exact absurd rfl hl
  | cons c cs => simp [specChunks, specChunksAux]

theorem specChunks_dropLast_length (k : Nat) (hk : 0 < k) :
    ∀ (n : Nat) (l : List α), l.length ≤ n →
      ∀ b ∈ (specChunks k l).dropLast, b.length = k := by
  intro n
  induction n with
  | zero =>
    intro l h b hb
    have hl : l = [] := List.length_eq_zero.mp (by omega)
    subst hl
    simp [specChunks, specChunksAux] at hb
  | succ m ih =>
    intro l h b hb
    cases l with
    | nil => simp [specChunks, specChunksAux] at hb
    | cons c cs =>
      rw [specChunks_cons k hk _ (by simp)] at hb
      by_cases hd : (c :: cs).drop k = []
      · rw [hd] at hb
        simp [specChunks, specChunksAux] at hb
      · rw [List.dropLast_cons_of_ne_nil (specChunks_ne_nil k _ hd)] at hb
        rcases List.mem_cons.mp hb with hbe | hbm
        · subst hbe
          have h2 : ¬ (c :: cs).length ≤ k := fun hcon => hd (List.drop_eq_nil_of_le hcon)
          rw [List.length_take]
          simp at h2 ⊢
          omega
        · apply ih ((c :: cs).drop k) _ b hbm
          rw [List.length_drop]
          simp only [List.length_cons] at h ⊢
          omega

theorem updateResumeState_ok_of_no_state (task : TaskConfig) (hsf : task.stateFile = "")
    (lv : Option GoValue) : updateResumeState task lv = .ok none := by
  simp [updateResumeState, hsf]

theorem processRowsAux_ok (task : TaskConfig) (ri : Option Nat)
    (ins : Nat → Nat → Option String) (bs : Nat)
    (hins : ∀ b a, ins b a = none) (hsf : task.stateFile = "") :
    ∀ (rows batch : List Row) (bIdx proc : Nat) (lv : Option GoValue) (flushed : List (List Row)),
      batch.length < bs →
      processRowsAux task ri ins bs rows batch bIdx proc lv flushed
        = .ok (flushed ++ specChunks bs (batch ++ rows), proc + rows.length) := by
  intro rows
  induction rows with
  | nil =>
    intro batch bIdx proc lv flushed hlt
    cases batch with
    | nil => simp [processRowsAux, specChunks, specChunksAux]
    | cons b bs2 =>
      have hins2 : (insertBatchWithRetry (ins bIdx) task.maxRetries).1 = none :=
        insertBatchWithRetry_fst_none _ _ (hins bIdx)
      simp only [processRowsAux, hins2, updateResumeState_ok_of_no_state task hsf,
        List.isEmpty_cons]
      rw [List.append_nil, specChunks_short bs _ (by simp) (Nat.le_of_lt hlt)]
      simp
  | cons row rest ih =>
    intro batch bIdx proc lv flushed hlt
    simp only [processRowsAux]
    by_cases hfill : batch.length + 1 ≥ bs
    · have hbseq : batch.length + 1 = bs := by omega
      have hins2 : (insertBatchWithRetry (ins bIdx) task.maxRetries).1 = none :=
        insertBatchWithRetry_fst_none _ _ (hins bIdx)
      rw [if_pos (by simp; omega)]
      rw [hins2, updateResumeState_ok_of_no_state task hsf]
      rw [ih [] (bIdx + 1) (proc + 1) (resumeValueOf ri row lv) (flushed ++ [batch ++ [row]])
        (by simp; omega)]
      have hsp : specChunks bs (batch ++ row :: rest) = (batch ++ [row]) :: specChunks bs rest := by
        rw [specChunks_cons bs (by omega) _ (by simp)]
        have hbk : bs - batch.length = 1 := by omega
        congr 1
        · rw [List.take_append_eq_append_take, List.take_of_length_le (by omega), hbk]
          rfl
        · rw [List.drop_append_eq_append_drop, List.drop_eq_nil_of_le (by omega), hbk]
          rfl
      rw [hsp]
      simp [List.append_assoc]
      omega
    · rw [if_neg (by simp; omega)]
      rw [ih (batch ++ [row]) bIdx (proc + 1) (resumeValueOf ri row lv) flushed (by simp; omega)]
      rw [List.append_assoc]
      simp
      omega

theorem processRows_ok (task : TaskConfig) (ri : Option Nat)
    (ins : Nat → Nat → Option String) (rows : List Row)
    (hins : ∀ b a, ins b a = none) (hsf : task.stateFile = "") :
    processRows task ri ins rows = .ok (specChunks (batchSizeOf task) rows, rows.length) := by
  have hbs : 0 < batchSizeOf task := by
    unfold batchSizeOf
    split
    · omega
    · rename_i h
      omega
  have h := processRowsAux_ok task ri ins (batchSizeOf task) hins hsf rows [] 0 0 none []
    (by simp; omega)
  simpa using h

/-- C10: with `batch_size <= 0` the pipeline substitutes 1000, so (with the
state-file and insert oracles succeeding) the committed batches are exactly
the 1000-row chunks of the source rows in order — a flush happens exactly
when 1000 rows have accumulated — and every committed batch except possibly
the final partial one holds exactly 1000 rows. -/
theorem c10_default_batch_size (task : TaskConfig) (ri : Option Nat)
    (ins : Nat → Nat → Option String) (rows : List Row)
    (hbs : task.batchSize ≤ 0) (hins : ∀ b a, ins b a = none) (hsf : task.stateFile = "") :
    processRows task ri ins rows = .ok (specChunks 1000 rows, rows.length)
    ∧ ∀ b ∈ (specChunks 1000 rows).dropLast, b.length = 1000 := by
  have hb : batchSizeOf task = 1000 := by simp [batchSizeOf, hbs]
  constructor
  · have h := processRows_ok task ri ins rows hins hsf
    rwa [hb] at h
  · exact specChunks_dropLast_length 1000 (by norm_num) rows.length rows (Nat.le_refl _)

/-- C10 witness: a two-row stream with `batch_size = 0` commits one final
partial batch of both rows. -/
theorem c10_default_batch_size_witness :
    processRows { tableName := "t", batchSize := 0 } none (fun _ _ => none)
        [[some (.goInt 1)], [some (.goInt 2)]]
      = .ok (specChunks 1000 [[some (.goInt 1)], [some (.goInt 2)]], 2) :=
  (c10_default_batch_size { tableName := "t", batchSize := 0 } none (fun _ _ => none)
    [[some (.goInt 1)], [some (.goInt 2)]] (by decide) (fun _ _ => rfl) rfl).1

/-! ## C8: row-count validation -/

/-- C8: for a `validate=row_count` task (with the insert and state oracles
succeeding and at least one index configured) the pre-load count is read
before any flush and the post-load count after index creation, and the task
succeeds exactly when the target grew by the number of rows processed this
run; any other growth is an error — even though the batches were already
committed. -/
theorem c8_row_count_validation (task : TaskConfig) (ri : Option Nat)
    (ins : Nat → Nat → Option String) (countBefore countAfter : Int) (rows : List Row)
    (hval : task.validate = "row_count") (hsf : task.stateFile = "")
    (hidx : task.indexes ≠ []) (hins : ∀ b a, ins b a = none) :
    (processTaskPhases task ri ins countBefore countAfter rows).1
      = PhaseEv.getCountBefore
          :: ((specChunks (batchSizeOf task) rows).map (fun b => PhaseEv.flushBatch b.length)
            ++ [PhaseEv.createIndexes, PhaseEv.getCountAfter])
    ∧ ((processTaskPhases task ri ins countBefore countAfter rows).2 = .ok rows.length
        ↔ countAfter - countBefore = (rows.length : Int))
    ∧ (countAfter - countBefore ≠ (rows.length : Int) →
        (processTaskPhases task ri ins countBefore countAfter rows).2
          = .error ("row count validation failed for table " ++ task.tableName
              ++ ": expected " ++ natDecStr rows.length ++ " inserted rows but got "
              ++ intDecStr (countAfter - countBefore))) := by
  have hloop := processRows_ok task ri ins rows hins hsf
  have hidx2 : task.indexes.isEmpty = false := by
    cases h2 : task.indexes with
    | nil => exact absurd h2 hidx
    | cons a l => rfl
  by_cases hmis : countAfter - countBefore = (rows.length : Int)
  · simp [processTaskPhases, hloop, hval, hidx2, hmis]
  · simp [processTaskPhases, hloop, hval, hidx2, hmis]

/-- C8 witness: one streamed row, count growing from 0 to 1 — the task
succeeds and the phases appear in the documented order. -/
theorem c8_row_count_validation_witness :
    (processTaskPhases { tableName := "t", validate := "row_count", indexes := [{ name := "i1" }] }
        none (fun _ _ => none) 0 1 [[some (.goInt 1)]]).2 = .ok 1
    ∧ (processTaskPhases { tableName := "t", validate := "row_count", indexes := [{ name := "i1" }] }
        none (fun _ _ => none) 0 1 [[some (.goInt 1)]]).1
      = [PhaseEv.getCountBefore, PhaseEv.flushBatch 1, PhaseEv.createIndexes,
          PhaseEv.getCountAfter] := by
  have h := c8_row_count_validation
    { tableName := "t", validate := "row_count", indexes := [{ name := "i1" }] }
    none (fun _ _ => none) 0 1 [[some (.goInt 1)]] rfl rfl (by decide) (fun _ _ => rfl)
  exact ⟨(h.2.1).mpr (by decide), h.1.trans (by decide)⟩

/-! ## C4: a nil watermark value -/

/-- C4 counterexample: a task with a resume key but no state file (resume
from a static literal, which the configuration allows) never aborts on a nil
watermark: `updateResumeState` returns without error and the loop commits
batch after batch. -/
theorem c4_counterexample :
    ({ tableName := "t", resumeKey := "k", resumeFrom := "0", stateFile := "",
        batchSize := 1 } : TaskConfig).resumeKey ≠ ""
    ∧ updateResumeState
        { tableName := "t", resumeKey := "k", resumeFrom := "0", stateFile := "", batchSize := 1 }
        none = .ok none
    ∧ processRows
        { tableName := "t", resumeKey := "k", resumeFrom := "0", stateFile := "", batchSize := 1 }
        (some 0) (fun _ _ => none) [[none], [none]]
      = .ok ([[[none]], [[none]]], 2) := by
  refine ⟨by decide, rfl, rfl⟩

theorem processRowsAux_nil_resume_error (task : TaskConfig)
    (ins : Nat → Nat → Option String) (bs : Nat) (emsg : String)
    (herr : updateResumeState task none = .error emsg) :
    ∀ (rows batch : List Row) (bIdx proc : Nat) (flushed : List (List Row)),
      (rows ≠ [] ∨ batch ≠ []) → (∀ r ∈ rows, r = [none]) →
      ∃ e, processRowsAux task (some 0) ins bs rows batch bIdx proc none flushed = .error e := by
  intro rows
  induction rows with
  | nil =>
    intro batch bIdx proc flushed hne _
    have hb : batch ≠ [] := by
      rcases hne with h | h
      · exact absurd rfl h
      · exact h
    cases batch with
    | nil => exact absurd rfl hb
    | cons b bs2 =>
      cases hrr : (insertBatchWithRetry (ins bIdx) task.maxRetries).1 with
      | some e => exact ⟨"failed to insert final batch: " ++ e, by simp [processRowsAux, hrr]⟩
      | none => exact ⟨emsg, by simp [processRowsAux, hrr, herr]⟩
  | cons row rest ih =>
    intro batch bIdx proc flushed _ hcells
    have hrow : row = [none] := hcells row (List.mem_cons_self row rest)
    subst hrow
    have hlv : resumeValueOf (some 0) [none] none = none := rfl
    by_cases hfill : batch.length + 1 ≥ bs
    · cases hrr : (insertBatchWithRetry (ins bIdx) task.maxRetries).1 with
      | some e =>
        exact ⟨"failed to insert batch: " ++ e, by simp [processRowsAux, hfill, hrr, hlv]⟩
      | none =>
        exact ⟨emsg, by simp [processRowsAux, hfill, hrr, hlv, herr]⟩
    · have hrec := ih (batch ++ [[none]]) bIdx (proc + 1) flushed (Or.inr (by simp))
        (fun r hr => hcells r (List.mem_cons_of_mem _ hr))
      obtain ⟨e2, he2⟩ := hrec
      refine ⟨e2, ?_⟩
      simp only [processRowsAux]
      rw [if_neg (by simp; omega)]
      rw [hlv]
      exact he2

/-- C4 (amended): for a task configured with a resume key and a state file,
a nil resume-key value makes `updateResumeState` fail with the nil-watermark
error, so the streaming loop aborts with an error at the first committed
batch instead of continuing (whatever the insert outcomes are, the loop
cannot reach a success result on a stream of nil-valued resume rows). -/
theorem c4_nil_watermark_aborts (task : TaskConfig)
    (hrk : task.resumeKey ≠ "") (hsf : task.stateFile ≠ "") :
    updateResumeState task none
      = .error ("resume_key '" ++ task.resumeKey ++ "' value is nil for table " ++ task.tableName)
    ∧ ∀ (ins : Nat → Nat → Option String) (rows : List Row),
        rows ≠ [] → (∀ r ∈ rows, r = [none]) →
        ∃ e, processRows task (some 0) ins rows = .error e := by
  have herr : updateResumeState task none
      = .error ("resume_key '" ++ task.resumeKey ++ "' value is nil for table "
          ++ task.tableName) := by
    simp [updateResumeState, hrk, hsf]
  refine ⟨herr, ?_⟩
  intro ins rows hrows hcells
  exact processRowsAux_nil_resume_error task ins (batchSizeOf task) _ herr rows [] 0 0 []
    (Or.inl hrows) hcells

/-- C4 witness: the amended behaviour at a concrete task with a state file
and a single nil-valued resume row. -/
theorem c4_nil_watermark_aborts_witness :
    updateResumeState
        { tableName := "t", resumeKey := "k", stateFile := "state.json", batchSize := 1 } none
      = .error "resume_key 'k' value is nil for table t"
    ∧ ∃ e, processRows
        { tableName := "t", resumeKey := "k", stateFile := "state.json", batchSize := 1 }
        (some 0) (fun _ _ => none) [[none]] = .error e := by
  have h := c4_nil_watermark_aborts
    { tableName := "t", resumeKey := "k", stateFile := "state.json", batchSize := 1 }
    (by decide) (by decide)
  exact ⟨h.1.trans (by rfl), h.2 (fun _ _ => none) [[none]] (by decide) (by decide)⟩

/-! ## C1: merge mode flushes through the plain INSERT -/

/-- C1: the pipeline's flush path prepares the plain `INSERT` statement for
a merge-mode task — `insertBatchWithRetry` always calls
`TargetDB.InsertData`, which carries no conflict clause — while the
(uncalled) `UpsertData` builder would have produced the `ON DUPLICATE KEY
UPDATE` statement; under the spec-modelled engine semantics the plain
insert of the spec's example batch raises a duplicate-key failure where the
claimed upsert semantics update row `id=1` in place. -/
theorem c1_merge_flush_plain_insert :
    ({ tableName := "target", mode := "merge", mergeKeys := ["id"] } : TaskConfig).mode = "merge"
    ∧ flushSQLMySQL { tableName := "target", mode := "merge", mergeKeys := ["id"] }
        [{ name := "id" }, { name := "val" }]
      = "INSERT INTO `target` (`id`, `val`) VALUES (?, ?)"
    ∧ strContainsGo
        (flushSQLMySQL { tableName := "target", mode := "merge", mergeKeys := ["id"] }
          [{ name := "id" }, { name := "val" }]) "ON DUPLICATE KEY" = false
    ∧ mysqlUpsertSQL "target" [{ name := "id" }, { name := "val" }] ["id"]
      = some "INSERT INTO `target` (`id`, `val`) VALUES (?, ?) ON DUPLICATE KEY UPDATE `val`=VALUES(`val`)"
    ∧ specPlainInsertBatch [0] [["1", "a"]] [["1", "b"], ["2", "c"]] = .error "duplicate key"
    ∧ specUpsertBatch [0] [["1", "a"]] [["1", "b"], ["2", "c"]] = [["1", "b"], ["2", "c"]] := by
  refine ⟨rfl, rfl, by decide, rfl, rfl, rfl⟩

end DbFerry
